import Mathlib

/-!
Shallow embedding of the mpv-tools menu/cycle/stack core:
RandomCycle (RANDOMCYCLE.JS), Stack (STACK.JS) and SelectionMenu
(SELECTIONMENU.JS), together with theorems settling the spec claims.

Conventions of the embedding:
* JS numbers that are used as integers are embedded as Nat or Int, matching
  how each function uses them; Utils.isInt checks are absorbed by the types.
* Fallible JS code (throw) returns Option, with none for the thrown case.
* Host interactions (mp.osd_message, mp.set_property, user callbacks) are
  modelled by a World state holding the osd-font-size property and an event
  log; timers are modelled by explicit flags and pending-timeout fields, and
  a timer firing is an explicit step function.
-/

namespace MpvTools

/-! ## Utils (MicroUtils.js) -/

/-- Modelled from the spec: Utils.shuffle is referenced by RANDOMCYCLE.JS but
its code is not under src/ (the MicroUtils.js there lacks it). Per the spec
(section 4.1) setCount builds the permutation "order = shuffle([0..n))", a
random permutation of the input. We model the randomized selection step:
selectOut j l removes the element at position j (j < l.length) and returns
it together with the remaining list. -/
def selectOut : Nat → List Nat → Nat × List Nat
  | _, [] => (0, [])
  | 0, a :: t => (a, t)
  | j + 1, a :: t =>
    let r := selectOut j t
    (r.1, a :: r.2)

/-- Modelled from the spec: the recursive worker of the shuffle. It draws a
pseudo-random position from the draws stream, moves that element to the
output, and continues on the rest. The fuel argument is the initial length
of the list, which bounds the recursion. -/
def shuffleGo : Nat → List Nat → List Nat → List Nat
  | 0, _, _ => []
  | _ + 1, _, [] => []
  | fuel + 1, draws, a :: t =>
    let l := a :: t
    let j := draws.headD 0 % l.length
    let r := selectOut j l
    r.1 :: shuffleGo fuel draws.tail r.2

/-- Modelled from the spec: Utils.shuffle randomizes the order of a list,
producing a permutation of it. The randomness source is made explicit as a
stream of draws, so the model is a pure function; every draws stream yields
a permutation, and all theorems below hold for every stream. -/
def shuffle (draws : List Nat) (l : List Nat) : List Nat :=
  shuffleGo l.length draws l

/-! ## RandomCycle (RANDOMCYCLE.JS) -/

/-- State of a RandomCycle object: the set size and the shuffled dataset. -/
structure RandomCycle where
  _count : Nat
  _shuffled : List Nat
deriving Repr, DecidableEq

/-- RandomCycle.prototype.setCount: stores the count and rebuilds _shuffled
as a shuffle of [0, count). (The Utils.isInt guard is absorbed by the Nat
type of count.) The draws stream feeds the modelled shuffle. -/
def RandomCycle.setCount (draws : List Nat) (count : Nat) : RandomCycle :=
  { _count := count, _shuffled := shuffle draws (List.range count) }

/-- RandomCycle.prototype.shuffleCycle: reshuffles the current dataset. -/
def RandomCycle.shuffleCycle (draws : List Nat) (c : RandomCycle) : RandomCycle :=
  { c with _shuffled := shuffle draws c._shuffled }

/-- RandomCycle.prototype._findIdx: locates an index value in the shuffled
dataset. Returns none where the JS throws: when idx is out of the count
range (idx < 0 is absorbed by Nat), or - as a safeguard - when idx cannot
be found (JS indexOf returns -1 there; List.indexOf returns the length). -/
def RandomCycle.findIdx (c : RandomCycle) (idx : Nat) : Option Nat :=
  if c._count ≤ idx then none
  else
    let foundAt := c._shuffled.indexOf idx
    if c._shuffled.length ≤ foundAt then none
    else some foundAt

/-- RandomCycle.prototype.getNext: the value stored after fromIdx in the
cycle, wrapping at the end. none models the throw from _findIdx (and the
out-of-bounds array read, which cannot occur for valid states). -/
def RandomCycle.getNext (c : RandomCycle) (fromIdx : Nat) : Option Nat :=
  match c.findIdx fromIdx with
  | none => none
  | some current =>
    let next := current + 1
    let next := if c._count ≤ next then 0 else next
    c._shuffled[next]?

/-- RandomCycle.prototype.getPrevious: the value stored before fromIdx in
the cycle, wrapping at the start. The JS computes current - 1 (possibly -1)
before the wrap test, so the intermediate value is an Int. -/
def RandomCycle.getPrevious (c : RandomCycle) (fromIdx : Nat) : Option Nat :=
  match c.findIdx fromIdx with
  | none => none
  | some current =>
    let previous : Int := (current : Int) - 1
    let previous := if previous < 0 then (c._count : Int) - 1 else previous
    c._shuffled[previous.toNat]?

/-- Iterated getNext: iterNext c k v follows the returned value k times
starting from v (used to express the cycle-traversal claim). -/
def RandomCycle.iterNext (c : RandomCycle) : Nat → Nat → Option Nat
  | 0, v => some v
  | k + 1, v => (c.iterNext k v).bind c.getNext

/-! ## Stack (Stack.js) -/

/-- State of a Stack object. position mirrors the JS field (it is -1 when
empty, else the index of the top element); maxSize is kept as given. -/
structure Stack (α : Type) where
  stack : List α
  position : Int
  maxSize : Int
deriving Repr, DecidableEq

/-- The Stack constructor. none models the throw for maxSize = 0 (the
non-integer part of the Utils.isInt guard is absorbed by the Int type). -/
def Stack.new (maxSize : Int) : Option (Stack α) :=
  if maxSize = 0 then none else some ⟨[], -1, maxSize⟩

/-- The while loop inside Stack.prototype.push:
while (stack.length > maxSize) stack.shift().
Each iteration on a non-empty list removes the first element; an iteration
on an empty list makes no progress, so the JS loop never exits - that
divergence (reached when maxSize is a negative number other than -1) is
modelled as none. -/
def shiftWhile (maxSize : Int) : List α → Option (List α)
  | [] => if maxSize < (0 : Int) then none else some []
  | a :: t =>
    if maxSize < ((a :: t).length : Int) then shiftWhile maxSize t
    else some (a :: t)

/-- Stack.prototype.push: appends to the end, then (unless maxSize = -1)
runs the shift loop, then resets position to the new top. -/
def Stack.push (s : Stack α) (elem : α) : Option (Stack α) :=
  let stack := s.stack ++ [elem]
  let res := if s.maxSize ≠ -1 then shiftWhile s.maxSize stack else some stack
  match res with
  | none => none
  | some st => some { s with stack := st, position := (st.length : Int) - 1 }

/-- Stack.prototype.pop: returns undefined (none) when empty, else removes
and returns the last element and resets position. -/
def Stack.pop (s : Stack α) : Option α × Stack α :=
  if s.position < 0 then (none, s)
  else
    let rest := s.stack.dropLast
    (s.stack.getLast?, { s with stack := rest, position := (rest.length : Int) - 1 })

/-- Stack.prototype.clearStack. -/
def Stack.clearStack (s : Stack α) : Stack α :=
  { s with stack := [], position := -1 }

/-- Stack.prototype.getLast. -/
def Stack.getLast (s : Stack α) : Option α :=
  if 0 ≤ s.position then s.stack[s.position.toNat]? else none

/-- Stack.prototype.getCount. -/
def Stack.getCount (s : Stack α) : Int :=
  s.position + 1

/-- Stack.prototype.isEmpty. -/
def Stack.isEmpty (s : Stack α) : Bool :=
  s.position < 0

/-- Sequential pushes (push entry by entry, left to right); none as soon as
one push diverges. -/
def Stack.pushAll (s : Stack α) : List α → Option (Stack α)
  | [] => some s
  | e :: es =>
    match s.push e with
    | none => none
    | some s2 => s2.pushAll es

/-- Sequence of n successive pops: the list of returned values (none is the
undefined returned on an empty stack) together with the final stack. -/
def Stack.popN (s : Stack α) : Nat → List (Option α) × Stack α
  | 0 => ([], s)
  | n + 1 =>
    let r := s.pop
    let rest := r.2.popN n
    (r.1 :: rest.1, rest.2)

/-! ## SelectionMenu (SELECTIONMENU.JS): key bindings -/

/-- The JS builtin String.prototype.toLowerCase, embedded characterwise
(the keys involved are ASCII key names). -/
def jsToLowerCase (s : String) : String :=
  String.mk (s.data.map Char.toLower)

/-- Whitespace as matched by the JS trim regex (the common ASCII members
of the \s class). -/
def isJsSpace (c : Char) : Bool :=
  c = ' ' ∨ c = '\t' ∨ c = '\n' ∨ c = '\r' ∨ c = '\x0b' ∨ c = '\x0c'

/-- The trim in the constructor: key.replace of leading and trailing
whitespace by the empty string, embedded characterwise. -/
def jsTrim (s : String) : String :=
  String.mk (((s.data.dropWhile isJsSpace).reverse.dropWhile isJsSpace).reverse)

/-- One entry of this.keyBindings: repeatable flag and bound keys. -/
structure Binding where
  repeatable : Bool
  keys : List String
deriving Repr, DecidableEq

/-- The default keybindings from the SelectionMenu constructor, in source
order (a JS object literal iterates in insertion order). -/
def defaultKeyBindings : List (String × Binding) :=
  [("Menu-Up", ⟨true, ["up"]⟩),
   ("Menu-Down", ⟨true, ["down"]⟩),
   ("Menu-Up-Fast", ⟨true, ["shift+up"]⟩),
   ("Menu-Down-Fast", ⟨true, ["shift+down"]⟩),
   ("Menu-Left", ⟨true, ["left"]⟩),
   ("Menu-Right", ⟨false, ["right"]⟩),
   ("Menu-Open", ⟨false, ["enter"]⟩),
   ("Menu-Undo", ⟨false, ["bs"]⟩),
   ("Menu-Help", ⟨false, ["h"]⟩),
   ("Menu-Close", ⟨false, ["esc"]⟩)]

/-- Helper for the rebinding loop: this.keyBindings[action].keys = ks. -/
def setActionKeys (bindings : List (String × Binding)) (action : String)
    (ks : List String) : List (String × Binding) :=
  bindings.map (fun p => if p.1 = action then (p.1, { p.2 with keys := ks }) else p)

/-- Helper for the rebinding loop: this.keyBindings[action].keys.push(key). -/
def pushActionKey (bindings : List (String × Binding)) (action : String)
    (key : String) : List (String × Binding) :=
  bindings.map (fun p => if p.1 = action then (p.1, { p.2 with keys := p.2.keys ++ [key] }) else p)

/-- The inner key loop of the constructor rebinding code: lowercase and trim
each key, skip empty results, and on the first kept key erase the default
keys of the action before pushing. (The throw for a non-string key cannot
arise: keys are Strings here.) -/
def rebindLoop (action : String) : List String → Bool → List (String × Binding) → List (String × Binding)
  | [], _, bindings => bindings
  | key :: rest, erasedDefaults, bindings =>
    let key := jsToLowerCase key
    let key := jsTrim key
    if key.length = 0 then rebindLoop action rest erasedDefaults bindings
    else
      let bindings := bif erasedDefaults then bindings else setActionKeys bindings action []
      rebindLoop action rest true (pushActionKey bindings action key)

/-- The outer rebinding loop of the constructor: each override entry must
name an existing action (none models the throw for an unknown action). -/
def applyRebinds : List (String × Binding) → List (String × List String) → Option (List (String × Binding))
  | bindings, [] => some bindings
  | bindings, (action, allKeys) :: rest =>
    if (bindings.map Prod.fst).contains action then
      applyRebinds (rebindLoop action allKeys false bindings) rest
    else none

/-- All keys bound across all actions, in iteration order (the boundKeys
sweep of the constructor touches exactly these). -/
def allBoundKeys (bindings : List (String × Binding)) : List String :=
  (bindings.map (fun p => p.2.keys)).flatten

/-- The keybinding part of the SelectionMenu constructor: apply the
keyRebindings overrides to the defaults, then fail (none, modelling the
throw) when any key is bound twice across the final table. -/
def constructKeyBindings (rebinds : List (String × List String)) : Option (List (String × Binding)) :=
  (applyRebinds defaultKeyBindings rebinds).bind
    (fun b => if (allBoundKeys b).Nodup then some b else none)

/-- The key set an action ends up with (lookup in the bindings table). -/
def lookupKeys (bindings : List (String × Binding)) (action : String) : Option (List String) :=
  (bindings.find? (fun p => p.1 == action)).map (fun p => p.2.keys)

/-- The keys of one override entry after the per-key normalization the
constructor applies: lowercased, trimmed, empty results dropped. -/
def procKeys (allKeys : List String) : List String :=
  (allKeys.map (fun k => jsTrim (jsToLowerCase k))).filter (fun k => k.length != 0)

/-! ## SelectionMenu: state, actions and host model -/

/-- The logical menu actions of the switch in _menuAction (the keys are
registered for exactly these, so the unknown-action default branch is
unreachable and the type enumerates the ten actions). -/
inductive MenuAction
  | mUp | mDown | mUpFast | mDownFast
  | mLeft | mRight | mOpen | mUndo | mHelp | mClose
deriving Repr, DecidableEq

/-- Observable host interactions: OSD writes (mp.osd_message, the duration
argument is absent for the clearing call in hideMenu) and the user-supplied
callbacks, which are external code and are modelled as logged invocations. -/
inductive MenuEvent
  | osdMessage (text : String) (durationMs : Option Int)
  | evCbMenuShow | evCbMenuHide
  | evCbMenuLeft | evCbMenuRight | evCbMenuOpen | evCbMenuUndo
deriving Repr, DecidableEq

/-- The SelectionMenu object state. Callbacks are modelled by presence
flags (the typeof func checks); menuInterval is the is-the-periodic-timer-
active flag; stopMessageTimeout holds the pending one-shot duration. -/
structure SelectionMenu where
  title : String
  options : List String
  selectionIdx : Int
  maxLines : Nat
  menuFontSize : Int
  originalFontSize : Option Int
  hasRegisteredKeys : Bool
  useTextColors : Bool
  currentMenuText : String
  isShowingMessage : Bool
  currentMessageText : String
  menuInterval : Bool
  stopMessageTimeout : Option Int
  autoCloseDelay : Int
  autoCloseActiveAt : Int
  keyBindings : List (String × Binding)
  hasCbMenuShow : Bool
  hasCbMenuHide : Bool
  hasCbMenuLeft : Bool
  hasCbMenuRight : Bool
  hasCbMenuOpen : Bool
  hasCbMenuUndo : Bool
deriving Repr, DecidableEq

/-- The world the menu acts on: the menu object, the value of the osd-font-
size host property, and the log of observable host interactions. -/
structure World where
  menu : SelectionMenu
  osdFontSize : Int
  events : List MenuEvent
deriving Repr, DecidableEq

/-- SelectionMenu.prototype.isMenuActive. -/
def SelectionMenu.isMenuActive (m : SelectionMenu) : Bool :=
  m.hasRegisteredKeys

/-- SelectionMenu.prototype.getSelectedItem: the empty string whenever the
selection index is outside [0, options.length), else the selected option
(the JS array read is in bounds there; getD supplies the unreachable
default the total Lean read needs). -/
def SelectionMenu.getSelectedItem (m : SelectionMenu) : String :=
  if m.selectionIdx < 0 ∨ (m.options.length : Int) ≤ m.selectionIdx then ""
  else (m.options[m.selectionIdx.toNat]?).getD ""

/-- The host environment of ASSFORMAT.JS: at module load it captures the
host properties osd-ass-cc/0 and osd-ass-cc/1 into Ass._startSeq and
Ass._stopSeq (mp.get_property_osd). Those two strings are host inputs, so
the embedding keeps them as parameters; all theorems hold for every value
of them. -/
structure AssEnv where
  _startSeq : String
  _stopSeq : String
deriving Repr, DecidableEq

/-- The first replace of Ass.esc: a U+2060 WORD JOINER is inserted after
every backslash (str.replace of every backslash by backslash U+2060). -/
def assEscBackslashes : List Char → List Char
  | [] => []
  | c :: rest =>
    if c = '\\' then c :: '\u2060' :: assEscBackslashes rest
    else c :: assEscBackslashes rest

/-- The second replace of Ass.esc: every opening brace is prefixed with a
backslash so it cannot open an ASS override block. -/
def assEscBraces : List Char → List Char
  | [] => []
  | c :: rest =>
    if c = '\x7b' then '\\' :: c :: assEscBraces rest
    else c :: assEscBraces rest

/-- Ass.startSeq: empty when output is false, else the captured start
sequence. -/
def Ass.startSeq (env : AssEnv) (output : Bool) : String :=
  if output = false then "" else env._startSeq

/-- Ass.stopSeq: empty when output is false, else the captured stop
sequence. -/
def Ass.stopSeq (env : AssEnv) (output : Bool) : String :=
  if output = false then "" else env._stopSeq

/-- Ass.esc: escaping can be disabled via the second argument; otherwise
backslashes are neutralized with U+2060 and opening braces are escaped
(the two chained replace calls, applied in source order). -/
def Ass.esc (str : String) (escape : Bool) : String :=
  if escape = false then str
  else String.mk (assEscBraces (assEscBackslashes str.data))

/-- Ass.size: the fs override tag. -/
def Ass.size (fontSize : Int) (output : Bool) : String :=
  if output = false then "" else "\x7b\\fs" ++ toString fontSize ++ "\x7d"

/-- Ass.scale: the fscx/fscy override tag. -/
def Ass.scale (scalePercent : Nat) (output : Bool) : String :=
  if output = false then ""
  else "\x7b\\fscx" ++ toString scalePercent ++ "\\fscy" ++ toString scalePercent ++ "\x7d"

/-- The JS builtin String.prototype.substring(a, b) for a ≤ b, embedded
characterwise (used by Ass.color on 6-character hex strings). -/
def jsSubstring (s : String) (a b : Nat) : String :=
  String.mk ((s.data.drop a).take (b - a))

/-- Ass.color: the 1c override tag, with the rgb hex pairs reordered to
bgr by the three substring calls. -/
def Ass.color (rgbHex : String) (output : Bool) : String :=
  if output = false then ""
  else "\x7b\\1c&H" ++ jsSubstring rgbHex 4 6 ++ jsSubstring rgbHex 2 4
    ++ jsSubstring rgbHex 0 2 ++ "&\x7d"

/-- Ass.white. -/
def Ass.white (output : Bool) : String :=
  Ass.color "FFFFFF" output

/-- Ass.gray. -/
def Ass.gray (output : Bool) : String :=
  Ass.color "909090" output

/-- Ass.yellow. -/
def Ass.yellow (output : Bool) : String :=
  Ass.color "FFFF90" output

/-- Ass.green. -/
def Ass.green (output : Bool) : String :=
  Ass.color "90FF90" output

/-- The window computation at the top of renderMenu (the startIdx/endIdx
block): center the start on the selection, clamp at 0, clamp the end to the
list end, then shift the start backward (again clamped at 0) to regain the
full maxLines budget when the end clamp shortened the window. -/
def renderWindow (len maxLines : Nat) (selectionIdx : Int) : Int × Int :=
  let startIdx := selectionIdx - ((maxLines / 2 : Nat) : Int)
  let startIdx := if startIdx < 0 then 0 else startIdx
  let endIdx := startIdx + (maxLines : Int) - 1
  let maxIdx : Int := (len : Int) - 1
  let endIdx := if maxIdx < endIdx then maxIdx else endIdx
  let lineCount := (endIdx - startIdx) + 1
  let lineDiff := (maxLines : Int) - lineCount
  let startIdx := startIdx - lineDiff
  let startIdx := if startIdx < 0 then 0 else startIdx
  (startIdx, endIdx)

/-- The text renderMenu builds: title header, then the windowed option
lines with the selection marker, the optional transient selection-marker
text, and edge truncation indicators. -/
def renderMenuText (env : AssEnv) (m : SelectionMenu) (markerText : Option String) : String :=
  let c := m.useTextColors
  let finalString := Ass.startSeq env c ++ Ass.gray c ++ Ass.scale 75 c ++
    Ass.esc m.title c ++ ":" ++ Ass.scale 100 c ++ Ass.white c ++ "\n\n"
  let finalString :=
    if 0 < m.options.length then
      let w := renderWindow m.options.length m.maxLines m.selectionIdx
      let startIdx := w.1
      let endIdx := w.2
      let maxIdx : Int := (m.options.length : Int) - 1
      let idxs := (List.range (endIdx + 1 - startIdx).toNat).map (fun k => startIdx + (k : Int))
      idxs.foldl (fun acc i =>
        let acc := acc ++ (if i = m.selectionIdx then
            Ass.yellow c ++ "> " ++ (match markerText with
              | some p => Ass.esc p c ++ " "
              | none => "")
          else "")
        let acc := acc ++ (if i = startIdx ∧ 0 < startIdx then "..."
          else if i = endIdx ∧ endIdx < maxIdx then "..."
          else Ass.esc ((m.options[i.toNat]?).getD "") c)
        let acc := acc ++ (if i = m.selectionIdx then Ass.white c else "")
        acc ++ (if i ≠ endIdx then "\n" else "")) finalString
    else finalString
  finalString ++ Ass.stopSeq env c

/-- SelectionMenu.prototype._renderActiveText: while the menu is active,
send the message text (when a message shows) or the menu text to the OSD
for 1000 ms. -/
def renderActiveText (w : World) : World :=
  if !w.menu.isMenuActive then w
  else
    let msg := if w.menu.isShowingMessage then w.menu.currentMessageText
      else w.menu.currentMenuText
    { w with events := w.events ++ [MenuEvent.osdMessage msg (some 1000)] }

/-- SelectionMenu.prototype._disableAutoCloseTimeout: -2 hard, -1 soft. -/
def disableAutoCloseTimeout (forceLock : Bool) (m : SelectionMenu) : SelectionMenu :=
  { m with autoCloseActiveAt := if forceLock then -2 else -1 }

/-- SelectionMenu.prototype._updateAutoCloseTimeout: record activity at the
current time, unless hard-locked and not forced. -/
def updateAutoCloseTimeout (forceUnlock : Bool) (now : Int) (m : SelectionMenu) : SelectionMenu :=
  if !forceUnlock ∧ m.autoCloseActiveAt = -2 then m
  else { m with autoCloseActiveAt := now }

/-- SelectionMenu.prototype.stopMessage: clear the pending expiry timer and
the message state, optionally re-render, and hard-update the idle clock. -/
def stopMessage (now : Int) (preventRender : Bool) (w : World) : World :=
  let m := { w.menu with stopMessageTimeout := none,
                         isShowingMessage := false, currentMessageText := "" }
  let w := { w with menu := m }
  let w := if !preventRender then renderActiveText w else w
  { w with menu := updateAutoCloseTimeout true now w.menu }

/-- SelectionMenu.prototype._showMenu: when the menu was closed, save the
host font size, override it, register the keys, (re)start the periodic
redraw timer and clear any lingering message; then render, and when the
menu just opened run the show callback (idle clock soft-disabled around it)
and hard-update the idle clock. -/
def showMenuW (now : Int) (w : World) : World :=
  let justOpened := !w.menu.isMenuActive
  let w :=
    if justOpened then
      let m := { w.menu with originalFontSize := some w.osdFontSize }
      let w := { w with menu := m, osdFontSize := m.menuFontSize }
      let w := { w with menu := { w.menu with hasRegisteredKeys := true } }
      let w := { w with menu := { w.menu with menuInterval := true } }
      stopMessage now true w
    else w
  let w := renderActiveText w
  if justOpened then
    let w :=
      if w.menu.hasCbMenuShow then
        { w with menu := disableAutoCloseTimeout false w.menu,
                 events := w.events ++ [MenuEvent.evCbMenuShow] }
      else w
    { w with menu := updateAutoCloseTimeout true now w.menu }
  else w

/-- SelectionMenu.prototype.renderMenu: rebuild the cached menu text, then
show it unless the render mode suppresses it (1 = only when already
onscreen and not covered by a message, 2 = never). -/
def renderMenu (env : AssEnv) (now : Int) (markerText : Option String) (renderMode : Nat) (w : World) : World :=
  let w := { w with menu := { w.menu with
    currentMenuText := renderMenuText env w.menu markerText } }
  if (renderMode = 1 ∧ (!w.menu.isMenuActive ∨ w.menu.isShowingMessage)) ∨ renderMode = 2 then w
  else showMenuW now w

/-- SelectionMenu.prototype.hideMenu: no-op when closed; else clear the
OSD, restore the saved host font size, unregister the keys, stop the
periodic timer, clear any message and run the hide callback. -/
def hideMenu (now : Int) (w : World) : World :=
  if !w.menu.isMenuActive then w
  else
    let w := { w with events := w.events ++ [MenuEvent.osdMessage "" none] }
    let w :=
      match w.menu.originalFontSize with
      | some v => { w with osdFontSize := v }
      | none => w
    let w := { w with menu := { w.menu with hasRegisteredKeys := false } }
    let w := { w with menu := { w.menu with menuInterval := false } }
    let w := stopMessage now true w
    if w.menu.hasCbMenuHide then { w with events := w.events ++ [MenuEvent.evCbMenuHide] }
    else w

/-- SelectionMenu.prototype.showMessage: no-op when closed; else optionally
refresh the cached menu text silently, set the message state, render it,
hard-disable the idle clock, and (re)arm the one-shot expiry timer. -/
def showMessage (env : AssEnv) (now : Int) (msg : String) (durationMs : Int) (clearSelectionMarker : Bool) (w : World) : World :=
  if !w.menu.isMenuActive then w
  else
    let w := if clearSelectionMarker then renderMenu env now none 2 w else w
    let w := { w with menu := { w.menu with isShowingMessage := true,
                                            currentMessageText := msg } }
    let w := renderActiveText w
    let w := { w with menu := disableAutoCloseTimeout true w.menu }
    { w with menu := { w.menu with stopMessageTimeout := some durationMs } }

/-- The result of Utils.quickSort(allKeys, caseInsensitive: true) from
MicroUtils.js: the non-recursive in-place quicksort is embedded by the
sorted permutation it produces, ordering the keys by their lowercased
form (the sortRef array of quickSort). -/
def sortKeysCI (keys : List String) : List String :=
  keys.mergeSort (fun a b => decide (jsToLowerCase a ≤ jsToLowerCase b))

/-- The Menu-Help loop of _menuAction: builds one help line per Menu-
action with bound keys. Because Utils.quickSort sorts each visited
allKeys array in place and allKeys aliases this.keyBindings[entry].keys,
the loop also mutates the binding table: the result is the pair of
(helpLines, helpString accumulator) and the updated keyBindings list in
which every qualifying entry carries its keys sorted. -/
def helpBuild (env : AssEnv) (m : SelectionMenu) : (Nat × String) × List (String × Binding) :=
  let c := m.useTextColors
  m.keyBindings.foldl (fun (acc : (Nat × String) × List (String × Binding)) p =>
    if !p.1.startsWith "Menu-" ∨ p.2.keys.length = 0 then (acc.1, acc.2 ++ [p])
    else
      let entryTitle := p.1.drop 5
      if entryTitle.length = 0 then (acc.1, acc.2 ++ [p])
      else
        let ks := sortKeysCI p.2.keys
        ((acc.1.1 + 1, acc.1.2 ++ Ass.yellow c ++ Ass.esc entryTitle c ++ ": " ++
           Ass.white c ++ Ass.esc ("\x7b" ++ String.intercalate "\x7d, \x7b" ks ++ "\x7d") c ++ "\n"),
         acc.2 ++ [(p.1, { p.2 with keys := ks })]))
    ((0, Ass.startSeq env c), [])

/-- The selection arithmetic of the movement branch of _menuAction: apply
the step (1, or 10 for the fast variants), then wrap out-of-range results
in single-step mode but clamp them to the nearest boundary in fast mode. -/
def newSelectionIdx (len : Nat) (idx : Int) (action : MenuAction) : Int :=
  let maxIdx : Int := (len : Int) - 1
  let idx :=
    if action = MenuAction.mUp ∨ action = MenuAction.mUpFast then
      idx - (if action = MenuAction.mUpFast then 10 else 1)
    else
      idx + (if action = MenuAction.mDownFast then 10 else 1)
  if idx < 0 then (if action = MenuAction.mUpFast then 0 else maxIdx)
  else if maxIdx < idx then (if action = MenuAction.mDownFast then maxIdx else 0)
  else idx

/-- SelectionMenu.prototype._menuAction: while a message shows, every
action except Menu-Close returns immediately; otherwise movement actions
update the selection and re-render, Left/Right/Open/Undo soft-disable the
idle clock and invoke their callback when registered, Help builds the key
listing (sorting the binding arrays in place as a side effect) and shows
it for 5000 ms, Close hides the menu; finally the idle clock is
soft-updated. -/
def menuAction (env : AssEnv) (now : Int) (action : MenuAction) (w : World) : World :=
  if w.menu.isShowingMessage ∧ action ≠ MenuAction.mClose then w
  else
    let w :=
      match action with
      | MenuAction.mUp | MenuAction.mDown | MenuAction.mUpFast | MenuAction.mDownFast =>
        let m := w.menu
        let m := { m with selectionIdx := newSelectionIdx m.options.length m.selectionIdx action }
        renderMenu env now none 0 { w with menu := m }
      | MenuAction.mLeft =>
        if w.menu.hasCbMenuLeft then
          { w with menu := disableAutoCloseTimeout false w.menu,
                   events := w.events ++ [MenuEvent.evCbMenuLeft] }
        else w
      | MenuAction.mRight =>
        if w.menu.hasCbMenuRight then
          { w with menu := disableAutoCloseTimeout false w.menu,
                   events := w.events ++ [MenuEvent.evCbMenuRight] }
        else w
      | MenuAction.mOpen =>
        if w.menu.hasCbMenuOpen then
          { w with menu := disableAutoCloseTimeout false w.menu,
                   events := w.events ++ [MenuEvent.evCbMenuOpen] }
        else w
      | MenuAction.mUndo =>
        if w.menu.hasCbMenuUndo then
          { w with menu := disableAutoCloseTimeout false w.menu,
                   events := w.events ++ [MenuEvent.evCbMenuUndo] }
        else w
      | MenuAction.mHelp =>
        let c := w.menu.useTextColors
        let r := helpBuild env w.menu
        let helpLines := r.1.1
        let hstr := r.1.2 ++ Ass.stopSeq env c
        let hstr := if helpLines = 0 then "No help available." else hstr
        let w := { w with menu := { w.menu with keyBindings := r.2 } }
        showMessage env now hstr 5000 false w
      | MenuAction.mClose =>
        hideMenu now w
    { w with menu := updateAutoCloseTimeout false now w.menu }

/-- The one-shot timer armed by showMessage firing: the scheduled callback
runs this.stopMessage(). No-op when no timer is pending. -/
def fireStopMessageTimeout (now : Int) (w : World) : World :=
  match w.menu.stopMessageTimeout with
  | none => w
  | some _ => stopMessage now false w

/-- A sample menu in the closed state (used to instantiate theorems at
concrete inputs). -/
def sampleMenu : SelectionMenu :=
  { title := "Title", options := ["a", "b", "c"], selectionIdx := 0, maxLines := 10,
    menuFontSize := 40, originalFontSize := none, hasRegisteredKeys := false,
    useTextColors := true, currentMenuText := "", isShowingMessage := false,
    currentMessageText := "", menuInterval := false, stopMessageTimeout := none,
    autoCloseDelay := 5, autoCloseActiveAt := 0, keyBindings := defaultKeyBindings,
    hasCbMenuShow := false, hasCbMenuHide := false, hasCbMenuLeft := true,
    hasCbMenuRight := false, hasCbMenuOpen := false, hasCbMenuUndo := false }

/-- A sample world whose menu is closed. -/
def sampleClosedWorld : World :=
  { menu := sampleMenu, osdFontSize := 55, events := [] }

/-- A sample menu in the open state, showing a message with a pending
500 ms expiry timer. -/
def sampleMessageMenu : SelectionMenu :=
  { sampleMenu with
    hasRegisteredKeys := true
    isShowingMessage := true
    currentMessageText := "X"
    stopMessageTimeout := some 500
    originalFontSize := some 55 }

/-- A sample world whose menu is open and showing a message with a pending
500 ms expiry timer. -/
def sampleMessageWorld : World :=
  { menu := sampleMessageMenu, osdFontSize := 40, events := [] }

/-- A sample value for the two host-provided ASS control sequences (their
content is irrelevant to every theorem; a concrete value is needed only
to instantiate theorems at concrete inputs). -/
def sampleAssEnv : AssEnv :=
  { _startSeq := "(ass-cc-0)", _stopSeq := "(ass-cc-1)" }

/-! ## Theorems: shuffle produces a permutation -/

lemma selectOut_perm : ∀ (j : Nat) (l : List Nat), j < l.length →
    ((selectOut j l).1 :: (selectOut j l).2).Perm l
  | 0, a :: t, _ => by simp [selectOut]
  | j + 1, a :: t, h => by
    have ih := selectOut_perm j t (by simpa using h)
    simp only [selectOut]
    exact ((List.Perm.swap a (selectOut j t).1 (selectOut j t).2).trans
      (List.Perm.cons a ih))

lemma shuffleGo_perm : ∀ (fuel : Nat) (draws l : List Nat), l.length ≤ fuel →
    (shuffleGo fuel draws l).Perm l
  | 0, _, l, h => by
    have : l = [] := List.eq_nil_of_length_eq_zero (Nat.le_zero.mp h)
    simp [this, shuffleGo]
  | fuel + 1, draws, [], _ => by simp [shuffleGo]
  | fuel + 1, draws, a :: t, h => by
    simp only [shuffleGo]
    set l := a :: t with hl
    have hj : draws.headD 0 % l.length < l.length :=
      Nat.mod_lt _ (by simp [hl])
    have hperm := selectOut_perm (draws.headD 0 % l.length) l hj
    have hlen2 : (selectOut (draws.headD 0 % l.length) l).2.length ≤ fuel := by
      have := hperm.length_eq
      simp only [List.length_cons] at this
      have hll : l.length ≤ fuel + 1 := h
      omega
    have ih := shuffleGo_perm fuel draws.tail _ hlen2
    exact (List.Perm.cons _ ih).trans hperm

lemma shuffle_perm (draws l : List Nat) : (shuffle draws l).Perm l :=
  shuffleGo_perm l.length draws l le_rfl

lemma setCount_count (draws : List Nat) (n : Nat) :
    (RandomCycle.setCount draws n)._count = n := rfl

lemma setCount_shuffled_perm (draws : List Nat) (n : Nat) :
    (RandomCycle.setCount draws n)._shuffled.Perm (List.range n) :=
  shuffle_perm draws (List.range n)

/-! ## Theorems: the RandomCycle traversal -/

lemma getElem_idx_congr {α : Type} {l : List α} {i j : Nat} (hij : i = j)
    (hi : i < l.length) (hj : j < l.length) : l[i] = l[j] := by
  subst hij; rfl

lemma findIdx_getElem (c : RandomCycle) (n : Nat) (hc : c._count = n)
    (hp : c._shuffled.Perm (List.range n)) (i : Nat) (hi : i < c._shuffled.length) :
    c.findIdx (c._shuffled[i]) = some i := by
  have hnd : c._shuffled.Nodup := hp.nodup_iff.mpr (List.nodup_range n)
  have hvn : c._shuffled[i] < n := by
    have hmem : c._shuffled[i] ∈ c._shuffled := List.getElem_mem hi
    simpa [List.mem_range] using hp.mem_iff.mp hmem
  simp only [RandomCycle.findIdx, hc]
  rw [if_neg (by omega), List.indexOf_getElem hnd i hi, if_neg (by omega)]

lemma getNext_getElem (c : RandomCycle) (n : Nat) (hc : c._count = n)
    (hp : c._shuffled.Perm (List.range n)) (i : Nat) (hi : i < c._shuffled.length)
    (hi2 : (i + 1) % n < c._shuffled.length) :
    c.getNext (c._shuffled[i]) = some (c._shuffled[(i + 1) % n]) := by
  have hlen : c._shuffled.length = n := hp.length_eq.trans (List.length_range n)
  simp only [RandomCycle.getNext, findIdx_getElem c n hc hp i hi, hc]
  rcases Nat.lt_or_ge (i + 1) n with hlt | hge
  · rw [if_neg (by omega), List.getElem?_eq_getElem (by omega)]
    exact congrArg some
      (getElem_idx_congr ((Nat.mod_eq_of_lt hlt).symm) (by omega) hi2)
  · have hin : i + 1 = n := by omega
    rw [if_pos (by omega), List.getElem?_eq_getElem (by omega)]
    exact congrArg some
      (getElem_idx_congr (by rw [hin, Nat.mod_self]) (by omega) hi2)

lemma getPrevious_getElem (c : RandomCycle) (n : Nat) (hc : c._count = n)
    (hp : c._shuffled.Perm (List.range n)) (j : Nat) (hj : j < c._shuffled.length)
    (hj2 : (j + (n - 1)) % n < c._shuffled.length) :
    c.getPrevious (c._shuffled[j]) = some (c._shuffled[(j + (n - 1)) % n]) := by
  have hlen : c._shuffled.length = n := hp.length_eq.trans (List.length_range n)
  have hn : 1 ≤ n := by omega
  simp only [RandomCycle.getPrevious, findIdx_getElem c n hc hp j hj, hc]
  rcases Nat.eq_zero_or_pos j with hj0 | hjpos
  · subst hj0
    rw [if_pos (by omega), List.getElem?_eq_getElem (by omega)]
    refine congrArg some (getElem_idx_congr ?_ (by omega) hj2)
    rw [Nat.zero_add, Nat.mod_eq_of_lt (by omega)]
    omega
  · rw [if_neg (by omega), List.getElem?_eq_getElem (by omega)]
    refine congrArg some (getElem_idx_congr ?_ (by omega) hj2)
    have h2 : j + (n - 1) = (j - 1) + n := by omega
    rw [h2, Nat.add_mod_right, Nat.mod_eq_of_lt (by omega)]
    omega

lemma iterNext_getElem (c : RandomCycle) (n : Nat) (hc : c._count = n)
    (hp : c._shuffled.Perm (List.range n)) (p : Nat) :
    ∀ (k : Nat) (h1 : p % n < c._shuffled.length) (h2 : (p + k) % n < c._shuffled.length),
      c.iterNext k (c._shuffled[p % n]) = some (c._shuffled[(p + k) % n]) := by
  have hlen : c._shuffled.length = n := hp.length_eq.trans (List.length_range n)
  intro k
  induction k with
  | zero => intro h1 h2; simp [RandomCycle.iterNext]
  | succ k ih =>
    intro h1 h2
    have hk : (p + k) % n < c._shuffled.length := by
      rw [hlen]; exact Nat.mod_lt _ (by omega)
    simp only [RandomCycle.iterNext, ih h1 hk, Option.some_bind]
    rw [getNext_getElem c n hc hp _ hk (by rw [hlen]; exact Nat.mod_lt _ (by omega))]
    exact congrArg some (getElem_idx_congr
      (by rw [Nat.mod_add_mod, Nat.add_assoc])
      (by rw [hlen]; exact Nat.mod_lt _ (by omega)) h2)

/-- Claim C1: for every n ≥ 1, after ShuffleCycle.setCount(n) (the source
class is RandomCycle; the model is universal in the random draws feeding
the shuffle), starting from any value v in [0, n) and repeatedly following
getNext, the first n visited values are exactly the n values of [0, n),
each exactly once, and the n-th step returns to v (the traversal is a
single cycle covering the whole range). -/
theorem rc_setCount_getNext_cycle (draws : List Nat) (n v : Nat)
    (hn : 1 ≤ n) (hv : v < n) :
    ((List.range n).map (fun k => (RandomCycle.setCount draws n).iterNext k v)).Perm
      ((List.range n).map some)
    ∧ (RandomCycle.setCount draws n).iterNext n v = some v := by
  set c := RandomCycle.setCount draws n with hcdef
  have hc : c._count = n := rfl
  have hp : c._shuffled.Perm (List.range n) := setCount_shuffled_perm draws n
  have hlen : c._shuffled.length = n := hp.length_eq.trans (List.length_range n)
  have hvmem : v ∈ c._shuffled := hp.mem_iff.mpr (List.mem_range.mpr hv)
  set p := c._shuffled.indexOf v with hpdef
  have hplt : p < c._shuffled.length := List.indexOf_lt_length.mpr hvmem
  have hvp : c._shuffled[p] = v := List.getElem_indexOf hplt
  have hpmod : p % n = p := Nat.mod_eq_of_lt (by omega)
  have hstart : c._shuffled[p % n] = v :=
    (getElem_idx_congr hpmod (by omega) hplt).trans hvp
  have hiter : ∀ (k : Nat) (h2 : (p + k) % n < c._shuffled.length),
      c.iterNext k v = some (c._shuffled[(p + k) % n]) := by
    intro k h2
    have h := iterNext_getElem c n hc hp p k (by omega) h2
    rwa [hstart] at h
  constructor
  · have hLeq : (List.range n).map (fun k => c.iterNext k v)
        = (c._shuffled.rotate p).map some := by
      apply List.ext_getElem
      · simp [hlen]
      · intro i hi1 hi2
        simp only [List.getElem_map, List.getElem_range]
        have hb : (p + i) % n < c._shuffled.length := by
          rw [hlen]; exact Nat.mod_lt _ (by omega)
        rw [hiter i hb, List.getElem_rotate]
        exact congrArg some (getElem_idx_congr (by rw [hlen, Nat.add_comm]) hb
          (Nat.mod_lt _ (by omega)))
    rw [hLeq]
    exact ((List.rotate_perm c._shuffled p).trans hp).map some
  · have hidx : (p + n) % n = p := by rw [Nat.add_mod_right, hpmod]
    have hb : (p + n) % n < c._shuffled.length := by omega
    rw [hiter n hb]
    exact congrArg some ((getElem_idx_congr hidx hb hplt).trans hvp)

/-- Claim C1 witness: the cycle property evaluated at n = 6, v = 3 with a
concrete draw stream. -/
theorem rc_setCount_getNext_cycle_witness :
    ((List.range 6).map (fun k => (RandomCycle.setCount [3, 1, 4, 1, 5, 9] 6).iterNext k 3)).Perm
      ((List.range 6).map some)
    ∧ (RandomCycle.setCount [3, 1, 4, 1, 5, 9] 6).iterNext 6 3 = some 3 :=
  rc_setCount_getNext_cycle [3, 1, 4, 1, 5, 9] 6 3 (by decide) (by decide)

/-- Claim C3: for every n ≥ 1, after ShuffleCycle.setCount(n), for every
value v in [0, n), getPrevious(getNext(v)) = v: getPrevious inverts
getNext on the valid range (for every random draw stream). -/
theorem rc_getPrevious_getNext_inverse (draws : List Nat) (n v : Nat)
    (hn : 1 ≤ n) (hv : v < n) :
    ((RandomCycle.setCount draws n).getNext v).bind
      (RandomCycle.setCount draws n).getPrevious = some v := by
  set c := RandomCycle.setCount draws n with hcdef
  have hc : c._count = n := rfl
  have hp : c._shuffled.Perm (List.range n) := setCount_shuffled_perm draws n
  have hlen : c._shuffled.length = n := hp.length_eq.trans (List.length_range n)
  have hvmem : v ∈ c._shuffled := hp.mem_iff.mpr (List.mem_range.mpr hv)
  set p := c._shuffled.indexOf v with hpdef
  have hplt : p < c._shuffled.length := List.indexOf_lt_length.mpr hvmem
  have hvp : c._shuffled[p] = v := List.getElem_indexOf hplt
  have hb1 : (p + 1) % n < c._shuffled.length := by
    rw [hlen]; exact Nat.mod_lt _ (by omega)
  have hgn : c.getNext v = some (c._shuffled[(p + 1) % n]) := by
    have h := getNext_getElem c n hc hp p hplt hb1
    rwa [hvp] at h
  rw [hgn, Option.some_bind]
  have hb2 : ((p + 1) % n + (n - 1)) % n < c._shuffled.length := by
    rw [hlen]; exact Nat.mod_lt _ (by omega)
  rw [getPrevious_getElem c n hc hp ((p + 1) % n) hb1 hb2]
  refine congrArg some ((getElem_idx_congr ?_ hb2 hplt).trans hvp)
  rw [Nat.mod_add_mod]
  have hsum : p + 1 + (n - 1) = p + n := by omega
  rw [hsum, Nat.add_mod_right, Nat.mod_eq_of_lt (by omega)]

/-- Claim C3 witness: the inverse property evaluated at n = 6, v = 3 with
a concrete draw stream. -/
theorem rc_getPrevious_getNext_inverse_witness :
    ((RandomCycle.setCount [3, 1, 4, 1, 5, 9] 6).getNext 3).bind
      (RandomCycle.setCount [3, 1, 4, 1, 5, 9] 6).getPrevious = some 3 :=
  rc_getPrevious_getNext_inverse [3, 1, 4, 1, 5, 9] 6 3 (by decide) (by decide)

/-! ## Theorems: the Stack -/

lemma shiftWhile_nonneg {α : Type} (ms : Int) (hms : 0 ≤ ms) :
    ∀ (l : List α), shiftWhile ms l = some (l.drop (l.length - ms.toNat))
  | [] => by
    simp only [shiftWhile]
    rw [if_neg (by omega)]
    simp
  | a :: t => by
    simp only [shiftWhile]
    rcases lt_or_le ms ((a :: t).length : Int) with h | h
    · rw [if_pos h, shiftWhile_nonneg ms hms t]
      have hd : (a :: t).length - ms.toNat = (t.length - ms.toNat) + 1 := by
        simp only [List.length_cons] at h ⊢; omega
      rw [hd, List.drop_succ_cons]
    · rw [if_neg (by omega)]
      have hd : (a :: t).length - ms.toNat = 0 := by
        simp only [List.length_cons] at h ⊢; omega
      rw [hd, List.drop_zero]

lemma pushAll_unbounded {α : Type} :
    ∀ (es l : List α),
      (Stack.mk l ((l.length : Int) - 1) (-1)).pushAll es
        = some (Stack.mk (l ++ es) (((l ++ es).length : Int) - 1) (-1))
  | [], l => by simp [Stack.pushAll]
  | e :: es, l => by
    simp only [Stack.pushAll, Stack.push, if_neg (by decide : ¬ (-1 : Int) ≠ -1)]
    rw [pushAll_unbounded es (l ++ [e])]
    simp

/-- Claim C2 counterexample: the claim quantifies over every negative
maxSize, but only -1 is the unbounded sentinel in the code. At
maxSize = -2 construction succeeds, yet the first push never returns:
the eviction loop (while stack.length > maxSize, shifting one element per
iteration) can never make the length smaller than -2, so it spins forever
once the stack is empty - modelled as push returning none. Hence after
pushing j = 1 entries, count() is not 1 (there is no resulting stack at
all). -/
theorem stack_negative_not_unbounded_cex :
    (Stack.new (-2) : Option (Stack Nat)) = some (Stack.mk [] (-1) (-2))
    ∧ (Stack.mk ([] : List Nat) (-1) (-2)).push 0 = none := by
  constructor
  · rfl
  · rfl

/-- Claim C2 (amended): with maxSize = -1 (the reserved unbounded
sentinel), construction succeeds and the stack is unbounded: after pushing
the entries of any list es (j = es.length entries, arbitrary j ≥ 0),
getCount() equals j. -/
theorem stack_unbounded_count (es : List Nat) :
    (Stack.new (-1) : Option (Stack Nat)) = some (Stack.mk [] (-1) (-1))
    ∧ ((Stack.mk ([] : List Nat) (-1) (-1)).pushAll es).map Stack.getCount
        = some ((es.length : Int)) := by
  refine ⟨rfl, ?_⟩
  have h := pushAll_unbounded es ([] : List Nat)
  simp only [List.length_nil, List.nil_append, Nat.cast_zero, zero_sub] at h
  rw [h]
  simp [Stack.getCount]

lemma drop_sub_append {α : Type} (l r : List α) (k : Nat) :
    (l.drop (l.length - k) ++ r).drop ((l.drop (l.length - k) ++ r).length - k)
      = (l ++ r).drop ((l ++ r).length - k) := by
  rcases le_or_lt k l.length with h | h
  · rw [← List.drop_append_of_le_length (by omega)]
    rw [List.drop_drop]
    congr 1
    simp only [List.length_drop, List.length_append]
    omega
  · rw [Nat.sub_eq_zero_of_le (le_of_lt h), List.drop_zero]

lemma pushAll_bounded {α : Type} (k : Nat) (hk : 1 ≤ k) :
    ∀ (es l : List α),
      (Stack.mk (l.drop (l.length - k))
        (((l.drop (l.length - k)).length : Int) - 1) (k : Int)).pushAll es
      = some (Stack.mk ((l ++ es).drop ((l ++ es).length - k))
        ((((l ++ es).drop ((l ++ es).length - k)).length : Int) - 1) (k : Int))
  | [], l => by simp [Stack.pushAll]
  | e :: es, l => by
    simp only [Stack.pushAll, Stack.push, if_pos (by omega : ((k : Nat) : Int) ≠ -1)]
    rw [shiftWhile_nonneg (k : Int) (by omega)]
    have htn : ((k : Nat) : Int).toNat = k := by omega
    rw [htn, drop_sub_append l [e] k]
    have h := pushAll_bounded k hk es (l ++ [e])
    simp only [Option.some.injEq]
    rw [h]
    simp

lemma popN_reverse {α : Type} (ms : Int) :
    ∀ (r : List α),
      (Stack.mk r.reverse ((r.reverse.length : Int) - 1) ms).popN r.length
        = (r.map some, Stack.mk [] (-1) ms)
  | [] => by
    simp [Stack.popN]
  | a :: r => by
    have hrev : (a :: r).reverse = r.reverse ++ [a] := List.reverse_cons a r
    simp only [List.length_cons, Stack.popN, Stack.pop, hrev]
    rw [if_neg (by simp)]
    simp only [List.getLast?_concat, List.dropLast_concat]
    rw [popN_reverse ms r]
    simp

/-- Claim C4: a Stack with finite maxSize k ≥ 1, after pushing k + m
entries (m ≥ 1), has count() = k, and k successive pops return exactly
the most recently pushed k entries in reverse push order (the oldest m
entries were evicted from the bottom). -/
theorem stack_bounded_evict_pop (k m : Nat) (es : List Nat)
    (hk : 1 ≤ k) (hm : 1 ≤ m) (hlen : es.length = k + m) :
    ((Stack.mk ([] : List Nat) (-1) (k : Int)).pushAll es).map
        (fun s => (s.getCount, (s.popN k).1))
      = some ((k : Int), (es.drop m).reverse.map some) := by
  have h := pushAll_bounded k hk es ([] : List Nat)
  simp only [List.length_nil, Nat.zero_sub, List.drop_nil, List.nil_append,
    Nat.cast_zero, zero_sub, List.drop_zero] at h
  have hdm : es.length - k = m := by omega
  rw [hdm] at h
  have hlend : (es.drop m).length = k := by rw [List.length_drop]; omega
  rw [hlend] at h
  rw [h, Option.map_some']
  have hp := popN_reverse (k : Int) (es.drop m).reverse
  rw [List.reverse_reverse, List.length_reverse, hlend] at hp
  rw [hp]
  simp [Stack.getCount]

/-- Claim C4 witness: k = 2, m = 1, entries [10, 20, 30]: count is 2 and
the pops return 30 then 20. -/
theorem stack_bounded_evict_pop_witness :
    ((Stack.mk ([] : List Nat) (-1) ((2 : Nat) : Int)).pushAll [10, 20, 30]).map
        (fun s => (s.getCount, (s.popN 2).1))
      = some (((2 : Nat) : Int), (([10, 20, 30] : List Nat).drop 1).reverse.map some) :=
  stack_bounded_evict_pop 2 1 [10, 20, 30] (by decide) (by decide) (by decide)

/-! ## Theorems: menu selection movement and windowing -/

/-- Claim C5: on a non-empty option list of length L, a single-step Up
(wrap mode) from index 0 lands on L - 1; a fast Up (step 10, clamp mode)
from index 3 lands on 0; a fast Down from any valid index that would
overshoot the end clamps to L - 1; a single-step Down from the last index
wraps to 0. -/
theorem menu_move_wrap_clamp (L : Nat) (hL : 1 ≤ L) :
    newSelectionIdx L 0 MenuAction.mUp = (L : Int) - 1
    ∧ (3 < L → newSelectionIdx L 3 MenuAction.mUpFast = 0)
    ∧ (∀ v : Int, 0 ≤ v → v < (L : Int) → (L : Int) - 1 < v + 10 →
        newSelectionIdx L v MenuAction.mDownFast = (L : Int) - 1)
    ∧ newSelectionIdx L ((L : Int) - 1) MenuAction.mDown = 0 := by
  refine ⟨?_, ?_, ?_, ?_⟩
  · simp +decide [newSelectionIdx]
  · intro h3
    simp +decide [newSelectionIdx]
  · intro v h0 hv hover
    simp +decide only [newSelectionIdx, if_true, if_false]
    rw [if_neg (by omega), if_pos (by omega)]
  · simp +decide only [newSelectionIdx, if_true, if_false]
    rw [if_neg (by omega), if_pos (by omega)]

/-- Claim C5 witness: the four parts evaluated at L = 5 (fast Down from
index 2, which overshoots 4). -/
theorem menu_move_wrap_clamp_witness :
    newSelectionIdx 5 0 MenuAction.mUp = (5 : Int) - 1
    ∧ newSelectionIdx 5 3 MenuAction.mUpFast = 0
    ∧ newSelectionIdx 5 2 MenuAction.mDownFast = (5 : Int) - 1
    ∧ newSelectionIdx 5 ((5 : Int) - 1) MenuAction.mDown = 0 := by
  have h := menu_move_wrap_clamp 5 (by decide)
  exact ⟨h.1, h.2.1 (by decide), h.2.2.1 2 (by decide) (by decide) (by decide), h.2.2.2⟩

/-- Claim C6: for a list of 100 items, maxVisibleLines = 10 and selection
index 95, the rendered window is exactly items 90 through 99: the start is
centered at 90, the end clamp hits item 99, and the backward shift keeps
the full 10-line budget. -/
theorem renderWindow_100_10_95 : renderWindow 100 10 95 = (90, 99) := by
  decide

/-- Claim C10: getSelectedItem never fails: it returns the empty string
whenever the selection index is outside [0, options.length) - in
particular on an empty option list - and otherwise the option stored at
the selection index. -/
theorem getSelectedItem_total (m : SelectionMenu) :
    ((m.selectionIdx < 0 ∨ (m.options.length : Int) ≤ m.selectionIdx) →
      m.getSelectedItem = "")
    ∧ (∀ (h0 : 0 ≤ m.selectionIdx) (h1 : m.selectionIdx.toNat < m.options.length),
        m.getSelectedItem = m.options[m.selectionIdx.toNat]) := by
  constructor
  · intro h
    simp only [SelectionMenu.getSelectedItem, if_pos h]
  · intro h0 h1
    have hno : ¬ (m.selectionIdx < 0 ∨ (m.options.length : Int) ≤ m.selectionIdx) := by
      omega
    simp only [SelectionMenu.getSelectedItem, if_neg hno]
    rw [List.getElem?_eq_getElem h1]
    rfl

/-- Claim C10 witness: the empty-list case on a menu with no options, and
the in-range case on the sample menu (selection 0 of [a, b, c]). -/
theorem getSelectedItem_total_witness :
    SelectionMenu.getSelectedItem { sampleMenu with options := [] } = ""
    ∧ SelectionMenu.getSelectedItem sampleMenu = "a" :=
  ⟨(getSelectedItem_total { sampleMenu with options := [] }).1 (by right; decide),
   (getSelectedItem_total sampleMenu).2 (by decide) (by decide)⟩

/-! ## Theorems: key rebinding overrides -/

lemma find?_map_fst_pres {f : String × Binding → String × Binding}
    (hf : ∀ p, (f p).1 = p.1) (a : String) :
    ∀ (b : List (String × Binding)),
      (b.map f).find? (fun q => q.1 == a) = (b.find? (fun q => q.1 == a)).map f
  | [] => rfl
  | p :: t => by
    by_cases hb : p.1 = a
    · rw [List.map_cons, List.find?_cons_of_pos _ (by simp [hf, hb]),
        List.find?_cons_of_pos _ (by simp [hb]), Option.map_some']
    · rw [List.map_cons, List.find?_cons_of_neg _ (by simp [hf, hb]),
        List.find?_cons_of_neg _ (by simp [hb])]
      exact find?_map_fst_pres hf a t

lemma setActionKeys_fst (a : String) (ks : List String) (p : String × Binding) :
    ((fun q => if q.1 = a then (q.1, { q.2 with keys := ks }) else q) p).1 = p.1 := by
  by_cases h : p.1 = a <;> simp [h]

lemma pushActionKey_fst (a : String) (k : String) (p : String × Binding) :
    ((fun q => if q.1 = a then (q.1, { q.2 with keys := q.2.keys ++ [k] }) else q) p).1 = p.1 := by
  by_cases h : p.1 = a <;> simp [h]

lemma lookupKeys_setActionKeys_self (b : List (String × Binding)) (a : String)
    (ks : List String) (h : a ∈ b.map Prod.fst) :
    lookupKeys (setActionKeys b a ks) a = some ks := by
  unfold lookupKeys setActionKeys
  rw [find?_map_fst_pres (setActionKeys_fst a ks) a b]
  have hsome : ((b.find? (fun q => q.1 == a)).isSome) := by
    rcases List.mem_map.mp h with ⟨p, hp, hpa⟩
    exact List.find?_isSome.mpr ⟨p, hp, by simp [hpa]⟩
  rcases Option.isSome_iff_exists.mp hsome with ⟨q, hq⟩
  have hqa : q.1 = a := by
    have := List.find?_some hq
    simpa using this
  rw [hq]
  simp [hqa]

lemma lookupKeys_setActionKeys_ne (b : List (String × Binding)) (a a2 : String)
    (ks : List String) (hne : a ≠ a2) :
    lookupKeys (setActionKeys b a ks) a2 = lookupKeys b a2 := by
  unfold lookupKeys setActionKeys
  rw [find?_map_fst_pres (setActionKeys_fst a ks) a2 b]
  cases hq : b.find? (fun q => q.1 == a2) with
  | none => rfl
  | some q =>
    have hqa : q.1 = a2 := by simpa using List.find?_some hq
    simp only [Option.map_some']
    rw [if_neg (by rw [hqa]; exact fun h => hne h.symm)]

lemma lookupKeys_pushActionKey_ne (b : List (String × Binding)) (a a2 : String)
    (k : String) (hne : a ≠ a2) :
    lookupKeys (pushActionKey b a k) a2 = lookupKeys b a2 := by
  unfold lookupKeys pushActionKey
  rw [find?_map_fst_pres (pushActionKey_fst a k) a2 b]
  cases hq : b.find? (fun q => q.1 == a2) with
  | none => rfl
  | some q =>
    have hqa : q.1 = a2 := by simpa using List.find?_some hq
    simp only [Option.map_some']
    rw [if_neg (by rw [hqa]; exact fun h => hne h.symm)]

lemma pushActionKey_setActionKeys (b : List (String × Binding)) (a : String)
    (cur : List String) (k : String) :
    pushActionKey (setActionKeys b a cur) a k = setActionKeys b a (cur ++ [k]) := by
  unfold pushActionKey setActionKeys
  rw [List.map_map]
  apply List.map_congr_left
  intro p _
  by_cases h : p.1 = a <;> simp [Function.comp, h]

lemma procKeys_cons_empty (key : String) (rest : List String)
    (h : (jsTrim (jsToLowerCase key)).length = 0) :
    procKeys (key :: rest) = procKeys rest := by
  simp [procKeys, h]

lemma procKeys_cons_keep (key : String) (rest : List String)
    (h : ¬ (jsTrim (jsToLowerCase key)).length = 0) :
    procKeys (key :: rest) = jsTrim (jsToLowerCase key) :: procKeys rest := by
  simp [procKeys, h]

lemma rebindLoop_true_eq (a : String) :
    ∀ (ks : List String) (b : List (String × Binding)) (cur : List String),
      rebindLoop a ks true (setActionKeys b a cur) = setActionKeys b a (cur ++ procKeys ks)
  | [], b, cur => by simp [rebindLoop, procKeys]
  | key :: rest, b, cur => by
    simp only [rebindLoop, Bool.cond_true]
    by_cases h : (jsTrim (jsToLowerCase key)).length = 0
    · rw [if_pos h, rebindLoop_true_eq a rest b cur, procKeys_cons_empty key rest h]
    · rw [if_neg h, pushActionKey_setActionKeys,
        rebindLoop_true_eq a rest b (cur ++ [jsTrim (jsToLowerCase key)]),
        procKeys_cons_keep key rest h, List.append_assoc]
      rfl

lemma rebindLoop_false_eq (a : String) :
    ∀ (ks : List String) (b : List (String × Binding)),
      rebindLoop a ks false b
        = if procKeys ks = [] then b else setActionKeys b a (procKeys ks)
  | [], b => by simp [rebindLoop, procKeys]
  | key :: rest, b => by
    simp only [rebindLoop, Bool.cond_false]
    by_cases h : (jsTrim (jsToLowerCase key)).length = 0
    · rw [if_pos h, rebindLoop_false_eq a rest b, procKeys_cons_empty key rest h]
    · rw [if_neg h, if_neg (by simp [procKeys_cons_keep key rest h])]
      have h1 : pushActionKey (setActionKeys b a []) a (jsTrim (jsToLowerCase key))
          = setActionKeys b a [jsTrim (jsToLowerCase key)] := by
        simpa using pushActionKey_setActionKeys b a [] (jsTrim (jsToLowerCase key))
      rw [h1, rebindLoop_true_eq a rest b [jsTrim (jsToLowerCase key)],
        procKeys_cons_keep key rest h]
      rfl

lemma lookupKeys_rebindLoop_ne (a2 a : String) (hne : a2 ≠ a) :
    ∀ (ks : List String) (er : Bool) (b : List (String × Binding)),
      lookupKeys (rebindLoop a2 ks er b) a = lookupKeys b a
  | [], er, b => rfl
  | key :: rest, er, b => by
    simp only [rebindLoop]
    by_cases h : (jsTrim (jsToLowerCase key)).length = 0
    · rw [if_pos h]
      exact lookupKeys_rebindLoop_ne a2 a hne rest er b
    · rw [if_neg h, lookupKeys_rebindLoop_ne a2 a hne rest true _,
        lookupKeys_pushActionKey_ne _ a2 a _ hne]
      cases er with
      | true => rw [Bool.cond_true]
      | false =>
        rw [Bool.cond_false, lookupKeys_setActionKeys_ne b a2 a [] hne]

lemma applyRebinds_preserves (a : String) :
    ∀ (rebinds : List (String × List String)) (b0 b : List (String × Binding)),
      a ∉ rebinds.map Prod.fst → applyRebinds b0 rebinds = some b →
      lookupKeys b a = lookupKeys b0 a
  | [], b0, b, _, h => by
    simp only [applyRebinds, Option.some.injEq] at h
    rw [h]
  | (a2, ks2) :: rest, b0, b, hnmem, h => by
    simp only [applyRebinds] at h
    by_cases hc : ((b0.map Prod.fst).contains a2 = true)
    · rw [if_pos hc] at h
      have hsplit : a ≠ a2 ∧ a ∉ rest.map Prod.fst := by
        simp only [List.map_cons, List.mem_cons, not_or] at hnmem
        exact hnmem
      rw [applyRebinds_preserves a rest _ b hsplit.2 h]
      exact lookupKeys_rebindLoop_ne a2 a (fun hh => hsplit.1 hh.symm) ks2 false b0
    · rw [if_neg hc] at h
      exact absurd h (by simp)

lemma applyRebinds_lookup (action : String) (ks : List String) :
    ∀ (rebinds : List (String × List String)) (b0 b : List (String × Binding)),
      (rebinds.map Prod.fst).Nodup → (action, ks) ∈ rebinds →
      applyRebinds b0 rebinds = some b → procKeys ks ≠ [] →
      lookupKeys b action = some (procKeys ks)
  | [], _, _, _, hmem, _, _ => absurd hmem (List.not_mem_nil _)
  | (a2, ks2) :: rest, b0, b, hnd, hmem, happ, hne => by
    simp only [applyRebinds] at happ
    by_cases hc : ((b0.map Prod.fst).contains a2 = true)
    · rw [if_pos hc] at happ
      rcases List.mem_cons.mp hmem with heq | hmemr
      · cases heq
        have hnotin : action ∉ rest.map Prod.fst := by
          simp only [List.map_cons, List.nodup_cons] at hnd
          exact hnd.1
        rw [applyRebinds_preserves action rest _ b hnotin happ,
          rebindLoop_false_eq action ks b0, if_neg hne]
        apply lookupKeys_setActionKeys_self
        simpa using hc
      · have hnd2 : (rest.map Prod.fst).Nodup := by
          simp only [List.map_cons, List.nodup_cons] at hnd
          exact hnd.2
        exact applyRebinds_lookup action ks rest _ b hnd2 hmemr happ hne
    · rw [if_neg hc] at happ
      exact absurd happ (by simp)

/-- Claim C7 (amended): for every action named in the keyRebindings
override map whose override list contains at least one key that is
nonempty after lowercasing and trimming, construction replaces that
action's key set entirely with the processed override keys (so no default
key survives unless it reappears in the override). An override entry with
no such key leaves the action's default keys untouched (see the
counterexample). -/
theorem keyRebindings_override_replaces (rebinds : List (String × List String))
    (action : String) (ks : List String) (b : List (String × Binding))
    (hnd : (rebinds.map Prod.fst).Nodup)
    (hmem : (action, ks) ∈ rebinds)
    (hc : constructKeyBindings rebinds = some b)
    (hne : procKeys ks ≠ []) :
    lookupKeys b action = some (procKeys ks) := by
  have happ : applyRebinds defaultKeyBindings rebinds = some b := by
    unfold constructKeyBindings at hc
    rcases Option.bind_eq_some.mp hc with ⟨b2, h2, h3⟩
    by_cases hd : (allBoundKeys b2).Nodup
    · rw [if_pos hd] at h3
      rw [h2, h3]
    · rw [if_neg hd] at h3
      exact absurd h3 (by simp)
  exact applyRebinds_lookup action ks rebinds defaultKeyBindings b hnd hmem happ hne

/-- Claim C7 witness: overriding Menu-Open with [" A", "b "] replaces the
default enter binding by the processed keys [a, b]. -/
theorem keyRebindings_override_replaces_witness :
    (constructKeyBindings [("Menu-Open", [" A", "b "])]).bind
      (fun b => lookupKeys b "Menu-Open") = some (procKeys [" A", "b "]) := by
  cases hcb : constructKeyBindings [("Menu-Open", [" A", "b "])] with
  | none => exact absurd hcb (by decide)
  | some b =>
    rw [Option.some_bind]
    exact keyRebindings_override_replaces [("Menu-Open", [" A", "b "])]
      "Menu-Open" [" A", "b "] b (by decide) (by decide) hcb (by decide)

/-- Claim C7 counterexample: the claim as stated fails for an override
entry whose key list is empty: the constructor only erases an action's
default keys when it encounters the first nonempty override key, so
keyRebindings of Menu-Open to [] leaves the default enter key bound even
though enter does not appear in the override. -/
theorem keyRebindings_empty_override_keeps_defaults :
    (constructKeyBindings [("Menu-Open", [])]).bind
      (fun b => lookupKeys b "Menu-Open") = some ["enter"]
    ∧ "enter" ∉ procKeys [] := by
  constructor
  · decide
  · decide

/-! ## Theorems: the menu state machine (message overlay and font size) -/

lemma renderActiveText_menu (w : World) : (renderActiveText w).menu = w.menu := by
  unfold renderActiveText
  split <;> rfl

lemma renderActiveText_osdFontSize (w : World) :
    (renderActiveText w).osdFontSize = w.osdFontSize := by
  unfold renderActiveText
  split <;> rfl

lemma updateAuto_selectionIdx (fu : Bool) (now : Int) (m : SelectionMenu) :
    (updateAutoCloseTimeout fu now m).selectionIdx = m.selectionIdx := by
  unfold updateAutoCloseTimeout
  split <;> rfl

lemma stopMessage_menu (now : Int) (p : Bool) (w : World) :
    (stopMessage now p w).menu
      = { w.menu with
          stopMessageTimeout := none
          isShowingMessage := false
          currentMessageText := ""
          autoCloseActiveAt := now } := by
  simp only [stopMessage]
  split <;> simp [renderActiveText_menu, updateAutoCloseTimeout]

lemma stopMessage_osdFontSize (now : Int) (p : Bool) (w : World) :
    (stopMessage now p w).osdFontSize = w.osdFontSize := by
  simp only [stopMessage]
  split <;> simp [renderActiveText_osdFontSize]

lemma showMenuW_selectionIdx (now : Int) (w : World) :
    (showMenuW now w).menu.selectionIdx = w.menu.selectionIdx := by
  simp only [showMenuW]
  split
  · split <;>
      simp [stopMessage_menu, renderActiveText_menu, updateAutoCloseTimeout,
        disableAutoCloseTimeout]
  · simp [renderActiveText_menu]

lemma showMenuW_of_closed_originalFontSize (now : Int) (w : World)
    (h : w.menu.hasRegisteredKeys = false) :
    (showMenuW now w).menu.originalFontSize = some w.osdFontSize := by
  simp only [showMenuW, SelectionMenu.isMenuActive, h, Bool.not_false, if_true]
  split <;>
    simp [stopMessage_menu, renderActiveText_menu, updateAutoCloseTimeout,
      disableAutoCloseTimeout]

lemma showMenuW_of_closed_active (now : Int) (w : World)
    (h : w.menu.hasRegisteredKeys = false) :
    (showMenuW now w).menu.hasRegisteredKeys = true := by
  simp only [showMenuW, SelectionMenu.isMenuActive, h, Bool.not_false, if_true]
  split <;>
    simp [stopMessage_menu, renderActiveText_menu, updateAutoCloseTimeout,
      disableAutoCloseTimeout]

lemma hideMenu_osdFontSize_restore (now : Int) (w : World) (v : Int)
    (hact : w.menu.hasRegisteredKeys = true)
    (horig : w.menu.originalFontSize = some v) :
    (hideMenu now w).osdFontSize = v := by
  simp only [hideMenu, SelectionMenu.isMenuActive, hact, horig, Bool.not_true,
    Bool.false_eq_true, if_false]
  split <;> simp [stopMessage_osdFontSize]

lemma menuAction_blocked (env : AssEnv) (now : Int) (a : MenuAction) (w : World)
    (hmsg : w.menu.isShowingMessage = true) (ha : a ≠ MenuAction.mClose) :
    menuAction env now a w = w := by
  unfold menuAction
  rw [if_pos ⟨hmsg, ha⟩]

lemma menuAction_move_selectionIdx (env : AssEnv) (now : Int) (a : MenuAction) (w : World)
    (hns : w.menu.isShowingMessage = false)
    (hmove : a = MenuAction.mUp ∨ a = MenuAction.mDown
      ∨ a = MenuAction.mUpFast ∨ a = MenuAction.mDownFast) :
    (menuAction env now a w).menu.selectionIdx
      = newSelectionIdx w.menu.options.length w.menu.selectionIdx a := by
  have hng : ¬ (w.menu.isShowingMessage = true ∧ a ≠ MenuAction.mClose) := by
    simp [hns]
  rcases hmove with h | h | h | h <;> subst h <;>
    (unfold menuAction
     rw [if_neg hng]
     simp only [renderMenu]
     rw [if_neg (by simp)]
     simp [showMenuW_selectionIdx, updateAuto_selectionIdx])

lemma menuAction_left_events (env : AssEnv) (now : Int) (w : World)
    (hns : w.menu.isShowingMessage = false)
    (hcb : w.menu.hasCbMenuLeft = true) :
    (menuAction env now MenuAction.mLeft w).events
      = w.events ++ [MenuEvent.evCbMenuLeft] := by
  have hng : ¬ (w.menu.isShowingMessage = true ∧ MenuAction.mLeft ≠ MenuAction.mClose) := by
    simp [hns]
  unfold menuAction
  rw [if_neg hng]
  simp [hcb]

/-- Claim C8: while a message overlay is active, dispatching any action
other than Close is a no-op leaving the entire state (menu fields, host
property and event log) unchanged - in particular the selection does not
move and no callback fires; once the pending message timer fires (the
scheduled stopMessage), movement actions update the selection normally
(by the newSelectionIdx rule on the same options and selection) and a
registered Left callback is invoked again. Universal over the host ASS
control sequences env. -/
theorem message_overlay_blocks_actions (now2 : Int) (w : World) (d : Int)
    (hmsg : w.menu.isShowingMessage = true)
    (hpend : w.menu.stopMessageTimeout = some d) :
    (∀ (env : AssEnv) (now : Int) (a : MenuAction), a ≠ MenuAction.mClose →
        menuAction env now a w = w)
    ∧ (∀ (env : AssEnv) (now3 : Int) (a : MenuAction),
        (a = MenuAction.mUp ∨ a = MenuAction.mDown
          ∨ a = MenuAction.mUpFast ∨ a = MenuAction.mDownFast) →
        (menuAction env now3 a (fireStopMessageTimeout now2 w)).menu.selectionIdx
          = newSelectionIdx w.menu.options.length w.menu.selectionIdx a)
    ∧ (∀ (env : AssEnv) (now3 : Int), w.menu.hasCbMenuLeft = true →
        (menuAction env now3 MenuAction.mLeft (fireStopMessageTimeout now2 w)).events
          = (fireStopMessageTimeout now2 w).events ++ [MenuEvent.evCbMenuLeft]) := by
  have hfire : fireStopMessageTimeout now2 w = stopMessage now2 false w := by
    unfold fireStopMessageTimeout
    rw [hpend]
  refine ⟨?_, ?_, ?_⟩
  · intro env now a ha
    exact menuAction_blocked env now a w hmsg ha
  · intro env now3 a hmove
    rw [hfire]
    rw [menuAction_move_selectionIdx env now3 a _ (by simp [stopMessage_menu]) hmove]
    simp [stopMessage_menu]
  · intro env now3 hcb
    rw [hfire]
    exact menuAction_left_events env now3 _ (by simp [stopMessage_menu])
      (by simp [stopMessage_menu, hcb])

/-- Claim C8 witness: on the sample open world showing a message (with the
sample host ASS sequences), an Up dispatch is a no-op, and after the timer
fires a Down dispatch moves the selection from 0 to 1 (its newSelectionIdx
value) and a Left dispatch invokes the registered Left callback. -/
theorem message_overlay_blocks_actions_witness :
    menuAction sampleAssEnv 7 MenuAction.mUp sampleMessageWorld = sampleMessageWorld
    ∧ (menuAction sampleAssEnv 8 MenuAction.mDown
        (fireStopMessageTimeout 7 sampleMessageWorld)).menu.selectionIdx
      = newSelectionIdx sampleMessageWorld.menu.options.length
          sampleMessageWorld.menu.selectionIdx MenuAction.mDown
    ∧ (menuAction sampleAssEnv 9 MenuAction.mLeft
        (fireStopMessageTimeout 7 sampleMessageWorld)).events
      = (fireStopMessageTimeout 7 sampleMessageWorld).events
          ++ [MenuEvent.evCbMenuLeft] := by
  have h := message_overlay_blocks_actions 7 sampleMessageWorld 500 rfl rfl
  exact ⟨h.1 sampleAssEnv 7 MenuAction.mUp (by decide),
    h.2.1 sampleAssEnv 8 MenuAction.mDown (by simp),
    h.2.2 sampleAssEnv 9 rfl⟩

/-- Claim C9: opening a closed menu records the host font size in
originalFontSize; hiding later restores exactly that recorded value to the
host property, even when the host property was changed externally (to an
arbitrary value ext) between open and hide. -/
theorem hide_restores_font_size (w : World) (now1 now2 ext : Int)
    (hclosed : w.menu.hasRegisteredKeys = false) :
    (showMenuW now1 w).menu.originalFontSize = some w.osdFontSize
    ∧ (hideMenu now2 { showMenuW now1 w with osdFontSize := ext }).osdFontSize
        = w.osdFontSize := by
  constructor
  · exact showMenuW_of_closed_originalFontSize now1 w hclosed
  · exact hideMenu_osdFontSize_restore now2 _ w.osdFontSize
      (showMenuW_of_closed_active now1 w hclosed)
      (showMenuW_of_closed_originalFontSize now1 w hclosed)

/-- Claim C9 witness: on the sample closed world (host font size 55),
opening records 55, an external change to 99 happens, and hiding restores
55. -/
theorem hide_restores_font_size_witness :
    (showMenuW 1 sampleClosedWorld).menu.originalFontSize
      = some sampleClosedWorld.osdFontSize
    ∧ (hideMenu 2 { showMenuW 1 sampleClosedWorld with osdFontSize := 99 }).osdFontSize
      = sampleClosedWorld.osdFontSize :=
  hide_restores_font_size sampleClosedWorld 1 2 99 rfl

end MpvTools
